import Mathlib

/-!
Verification of the SqliteLogger of BehaviorTree.CPP
(src/include/behaviortree_cpp/loggers/bt_sqlite_logger.h).

The repository exposes only the class declaration (the header) and an example
caller; the member-function bodies live in a translation unit that is not part
of the sources.  Following the header's declarations, field types and comments,
the behaviour of every member function is modelled from the specification
(spec.md): each such definition carries a doc comment starting with
`Modelled from the spec:`.  Field widths (uint16_t node_uid, int64_t
timestamp/duration) come from the header's `Transition` struct.
-/

namespace BTSpec

/-- The status enumeration of a tree node (BT::NodeStatus). -/
inductive NodeStatus where
  | IDLE
  | RUNNING
  | SUCCESS
  | FAILURE
  | SKIPPED
deriving DecidableEq, Repr

/-- A tree node as the logger sees it: its object identity (the memory
address, modelled as a natural number; the header keys `starting_time_` by
`const BT::TreeNode*`), its engine-assigned UID (an arbitrary natural here,
reduced to 16 bits when stored), and its name (used by metadata callbacks). -/
structure TreeNode where
  addr : Nat
  uid : Nat
  name : String
deriving DecidableEq, Repr

/-- Reduction of an integer to the value held by an `int64_t` field:
two's-complement wrap-around modulo 2^64. -/
def toInt64 (x : Int) : Int :=
  (x + 2 ^ 63) % 2 ^ 64 - 2 ^ 63

/-- The queued record of one status change, after the header's
`SqliteLogger::Transition` struct: `uint16_t node_uid; int64_t timestamp;
int64_t duration; NodeStatus status; std::string metadata;`.
`node_uid` holds values below 2^16 (enforced at construction by the
modulo-2^16 reduction of the unsigned 16-bit field). -/
structure Transition where
  node_uid : Nat
  timestamp : Int
  duration : Int
  status : NodeStatus
  metadata : String
deriving DecidableEq, Repr

/-- The metadata callback type, after the header's `MetadataFunc`:
`std::function<std::string(Duration, const TreeNode&, NodeStatus, NodeStatus)>`.
The `Duration` timestamp is modelled as its nanosecond count. -/
def MetadataFunc : Type :=
  Int → TreeNode → NodeStatus → NodeStatus → String

/-- Modelled from the spec: the logical content of the durable store
(§6 persisted-state layout) — the sessions table, the tree-structure table
(one serialized description per session) and the transitions table, every row
referencing its owning session id.  Stands in for the missing durable store
adapter implementation behind `sqlite::Connection`. -/
structure Store where
  sessionIds : List Nat
  treeRows : List (Nat × String)
  rows : List (Nat × Transition)
deriving DecidableEq, Repr

/-- A store with no sessions, no tree descriptions and no transition rows. -/
def emptyStore : Store :=
  { sessionIds := [], treeRows := [], rows := [] }

/-- Largest session id among a list of ids (0 when the list is empty). -/
def maxSession (l : List Nat) : Nat :=
  l.foldr Nat.max 0

/-- Modelled from the spec: allocation of the next session id (§4.1
`beginSession`): max existing session id + 1 when sessions exist, 0 for a
fresh store. -/
def nextSessionId (s : Store) : Nat :=
  if s.sessionIds.isEmpty then 0 else maxSession s.sessionIds + 1

/-- Well-formedness of a store: every tree-structure row and every transition
row references a session id present in the sessions table.  Stores produced by
the logger maintain this. -/
def WellFormedStore (s : Store) : Prop :=
  (∀ p ∈ s.treeRows, p.1 ∈ s.sessionIds) ∧ (∀ p ∈ s.rows, p.1 ∈ s.sessionIds)

instance (s : Store) : Decidable (WellFormedStore s) := by
  unfold WellFormedStore; infer_instance

/-- The logger state, after the header's private fields: the store connection
(`db_`), the per-node start-time table (`starting_time_`, keyed by
`const BT::TreeNode*`), the session id (`session_id_`), the hand-off queue
(`transitions_queue_`), the stop flag of the writer thread (`loop_`), the
metadata callback (`meta_func_`), plus a flag modelling whether the (single)
consumer is parked in its condition-variable wait and whether the store has
been closed. -/
structure LoggerState where
  store : Store
  session_id : Nat
  starting_time : List (Nat × Int)
  transitions_queue : List Transition
  meta_func : Option MetadataFunc
  consumer_waiting : Bool
  loop_ : Bool
  closed : Bool

/-- Lookup in the per-node start-time table, keyed by the node's address. -/
def lookupStart : List (Nat × Int) → Nat → Option Int
  | [], _ => none
  | (a, t) :: rest, addr => if a = addr then some t else lookupStart rest addr

/-- Map update of the per-node start-time table (the new binding shadows any
older binding for the same address). -/
def setStart (table : List (Nat × Int)) (addr : Nat) (t : Int) : List (Nat × Int) :=
  (addr, t) :: table

/-- Modelled from the spec: the error taxonomy of construction (§7):
a configuration error for a bad file extension. -/
inductive ConfigError where
  | badExtension
deriving DecidableEq, Repr

/-- Modelled from the spec: the file-identity contract (§6) — the destination
path's extension must be the one mandated by the companion visualization tool,
".db3" (header comment: "you must use the suffix .db3").  The check is stated
on the path's character list. -/
def hasMandatedExtension (file : String) : Bool :=
  List.isSuffixOf ".db3".data file.data

/-- Modelled from the spec: the logger state a successful construction
produces (§4.4 Construction, §4.1 open/beginSession, §6 append semantics):
the store is opened (append mode keeps the existing content, non-append
starts from an empty store), the session id is allocated (max existing + 1,
or 0 for a fresh store), the tree's structural description is persisted once
for the new session, and the logger starts with an empty queue, an empty
start-time table, no metadata callback and a running writer thread. -/
def constructedState (treeDescription : String) (append : Bool)
    (existing : Store) : LoggerState :=
  let base := if append then existing else emptyStore
  let sid := nextSessionId base
  { store := { base with
                 sessionIds := base.sessionIds ++ [sid],
                 treeRows := base.treeRows ++ [(sid, treeDescription)] },
    session_id := sid,
    starting_time := [],
    transitions_queue := [],
    meta_func := none,
    consumer_waiting := false,
    loop_ := true,
    closed := false }

/-- Modelled from the spec: the constructor
`SqliteLogger(tree, file, append)` (§4.4 Construction, §7 error taxonomy).
It validates the destination's extension first, failing synchronously with a
configuration error — the `Except.error`, the model of the constructor
throw — before any store/file is created or touched; otherwise it yields the
constructed state. -/
def construct (treeDescription : String) (file : String) (append : Bool)
    (existing : Store) : Except ConfigError LoggerState :=
  if hasMandatedExtension file = false then
    .error .badExtension
  else
    .ok (constructedState treeDescription append existing)

/-- Modelled from the spec: `setMetadataCallback` replaces the metadata
callback (§4.4 `setMetadataFunction`). -/
def setMetadataCallback (st : LoggerState) (f : MetadataFunc) : LoggerState :=
  { st with meta_func := some f }

/-- Modelled from the spec: the Transition record built by the observer
callback (§4.4, §3 data model): the duration is the elapsed time since this
node entered its previous non-idle status, read from the per-node start-time
table (0 when the table has no entry for the node); the metadata is the
result of invoking the optional metadata callback synchronously with the same
four arguments, or the empty string when none is set.  The caller supplies no
duration.  The `node_uid` is the engine UID reduced to the `uint16_t` field,
timestamp and duration are reduced to their `int64_t` fields. -/
def buildRecord (mf : Option MetadataFunc) (table : List (Nat × Int))
    (timestamp : Int) (node : TreeNode) (prev_status status : NodeStatus) :
    Transition :=
  let duration : Int :=
    match lookupStart table node.addr with
    | some t0 => timestamp - t0
    | none => 0
  { node_uid := node.uid % 2 ^ 16,
    timestamp := toInt64 timestamp,
    duration := toInt64 duration,
    status := status,
    metadata :=
      match mf with
      | some f => f timestamp node prev_status status
      | none => "" }

/-- Modelled from the spec: the start-time table update performed by the
callback (§4.4): if the new status denotes "now running", record the current
time as the new start time for that node; otherwise leave the table
unchanged. -/
def updateTable (table : List (Nat × Int)) (timestamp : Int) (node : TreeNode)
    (status : NodeStatus) : List (Nat × Int) :=
  if status = .RUNNING then setStart table node.addr timestamp else table

/-- Modelled from the spec: `push(record)` of the hand-off queue (§4.2):
appends to the tail, accepts every push (no backpressure; the queue may grow
without bound), wakes one waiting consumer.  Totality of this function is the
model of "never blocks the producer". -/
def pushRecord (st : LoggerState) (r : Transition) : LoggerState :=
  { st with
      transitions_queue := st.transitions_queue ++ [r],
      consumer_waiting := false }

/-- Modelled from the spec: the observer callback
`callback(timestamp, node, prev_status, status)` (§4.4 `onStatusChanged`):
builds the Transition record from the current start-time table and metadata
callback, updates the start-time table, and pushes the record to the queue. -/
def callback (st : LoggerState) (timestamp : Int) (node : TreeNode)
    (prev_status status : NodeStatus) : LoggerState :=
  let r := buildRecord st.meta_func st.starting_time timestamp node prev_status status
  pushRecord { st with starting_time := updateTable st.starting_time timestamp node status } r

/-- Modelled from the spec: one drain-and-write cycle (§4.2 `drainAll` +
§4.1 `writeBatch`): atomically removes every currently queued record and
persists the whole batch, in queue order, as transition rows referencing the
current session. -/
def drainWrite (st : LoggerState) : LoggerState :=
  { st with
      transitions_queue := [],
      store := { st.store with
                   rows := st.store.rows ++
                     st.transitions_queue.map (fun t => (st.session_id, t)) } }

/-- Modelled from the spec: `flush()` (§4.4): blocks until all records queued
at the time of the call are durably written — drain + synchronous
transactional write through the store adapter. -/
def flush (st : LoggerState) : LoggerState :=
  drainWrite st

/-- Modelled from the spec: the destructor `~SqliteLogger` (§4.4 Destruction,
§4.3 STOPPING): signal stop to the writer task, which performs one final
drain + write of all still-queued records before exiting; then close the
store. -/
def destruct (st : LoggerState) : LoggerState :=
  let stopped := { st with loop_ := false }
  let drained := drainWrite stopped
  { drained with closed := true }

/-- An event of the producer/consumer interleaving: either one status-change
callback on the producer side, or one wake-drain-write cycle of the writer
task. -/
inductive Event where
  | cb (timestamp : Int) (node : TreeNode) (prev_status status : NodeStatus)
  | drain

/-- Apply one event to the logger state. -/
def applyEvent (st : LoggerState) : Event → LoggerState
  | .cb ts n p s => callback st ts n p s
  | .drain => drainWrite st

/-- Run a sequence of events (an arbitrary interleaving of producer callbacks
and writer drain cycles) from a state. -/
def run (st : LoggerState) : List Event → LoggerState
  | [] => st
  | e :: es => run (applyEvent st e) es

/-- The records the callback events of an event sequence build, in producer
order, threading the start-time table exactly as `callback` does. -/
def producedRecords (mf : Option MetadataFunc) (table : List (Nat × Int)) :
    List Event → List Transition
  | [] => []
  | .cb ts n p s :: es =>
      buildRecord mf table ts n p s :: producedRecords mf (updateTable table ts n s) es
  | .drain :: es => producedRecords mf table es

/-- Number of status-change callback invocations in an event sequence. -/
def countCb : List Event → Nat
  | [] => 0
  | .cb _ _ _ _ :: es => countCb es + 1
  | .drain :: es => countCb es

/-- The transition rows the store holds for the state's current session, in
store order. -/
def sessionRows (st : LoggerState) : List Transition :=
  (st.store.rows.filter (fun r => r.1 = st.session_id)).map Prod.snd

/-- A concrete node used to instantiate theorems: address 1, UID 5, name "A". -/
def nodeA : TreeNode :=
  { addr := 1, uid := 5, name := "A" }

/-- A second concrete node object, distinct from `nodeA` (different address)
but with the same engine UID. -/
def nodeB : TreeNode :=
  { addr := 2, uid := 5, name := "B" }

/-- A concrete freshly-constructed logger state: session 0, the tree
description persisted, empty queue, empty start-time table. -/
def logger0 : LoggerState :=
  { store := { sessionIds := [0], treeRows := [(0, "tree")], rows := [] },
    session_id := 0,
    starting_time := [],
    transitions_queue := [],
    meta_func := none,
    consumer_waiting := false,
    loop_ := true,
    closed := false }

/-- A concrete event sequence: node A starts running at t=100, the writer
drains once, node A succeeds at t=150. -/
def eventsA : List Event :=
  [Event.cb 100 nodeA .IDLE .RUNNING, Event.drain,
   Event.cb 150 nodeA .RUNNING .SUCCESS]

/-- A concrete persisted transition row used to populate a prior session. -/
def rowOld : Transition :=
  { node_uid := 3, timestamp := 11, duration := 4, status := .SUCCESS,
    metadata := "" }

/-- A concrete store holding two prior sessions (ids 0 and 7), as left behind
by earlier recordings. -/
def priorStore : Store :=
  { sessionIds := [0, 7],
    treeRows := [(0, "ta"), (7, "tb")],
    rows := [(7, rowOld)] }

/-- The logger state obtained by constructing over `priorStore` in append
mode: session id 8 = max {0, 7} + 1, tree description appended for session 8,
prior rows untouched. -/
def loggerAppended : LoggerState :=
  { store := { sessionIds := [0, 7, 8],
               treeRows := [(0, "ta"), (7, "tb"), (8, "tc")],
               rows := [(7, rowOld)] },
    session_id := 8,
    starting_time := [],
    transitions_queue := [],
    meta_func := none,
    consumer_waiting := false,
    loop_ := true,
    closed := false }

/-- A concrete metadata callback: annotate completed transitions of nodes
named "A", leave every other row empty — the scenario of spec §8 item 6. -/
def metaA : MetadataFunc :=
  fun _ node _ status =>
    if node.name = "A" ∧ (status = .SUCCESS ∨ status = .FAILURE) then "X" else ""

/-! ### Basic lemmas about the int64 reduction and the start-time table -/

theorem toInt64_eq_self {x : Int} (hlo : -(2 ^ 63) ≤ x) (hhi : x < 2 ^ 63) :
    toInt64 x = x := by
  unfold toInt64
  have h1 : 0 ≤ x + 2 ^ 63 := by omega
  have h2 : x + 2 ^ 63 < 2 ^ 64 := by omega
  rw [Int.emod_eq_of_lt h1 h2]
  omega

theorem toInt64_zero : toInt64 0 = 0 :=
  toInt64_eq_self (by norm_num) (by norm_num)

theorem toInt64_lower (x : Int) : -(2 ^ 63) ≤ toInt64 x := by
  have h := Int.emod_nonneg (x + 2 ^ 63) (by norm_num : ((2 : Int) ^ 64) ≠ 0)
  unfold toInt64
  omega

theorem toInt64_upper (x : Int) : toInt64 x < 2 ^ 63 := by
  have h := Int.emod_lt_of_pos (x + 2 ^ 63) (by norm_num : (0 : Int) < (2 : Int) ^ 64)
  unfold toInt64
  omega

theorem lookupStart_setStart_same (table : List (Nat × Int)) (addr : Nat)
    (t : Int) : lookupStart (setStart table addr t) addr = some t := by
  simp [setStart, lookupStart]

theorem lookupStart_setStart_other (table : List (Nat × Int)) (a b : Nat)
    (t : Int) (h : a ≠ b) :
    lookupStart (setStart table a t) b = lookupStart table b := by
  simp [setStart, lookupStart, h]

theorem le_maxSession {l : List Nat} {x : Nat} (h : x ∈ l) : x ≤ maxSession l := by
  induction l with
  | nil => cases h
  | cons a as ih =>
    have hfold : maxSession (a :: as) = Nat.max a (maxSession as) := rfl
    rcases List.mem_cons.mp h with rfl | hmem
    · rw [hfold]; exact Nat.le_max_left _ _
    · rw [hfold]; exact Nat.le_trans (ih hmem) (Nat.le_max_right _ _)

theorem nextSessionId_not_mem (s : Store) : nextSessionId s ∉ s.sessionIds := by
  unfold nextSessionId
  split
  · next h =>
    rw [List.isEmpty_iff] at h
    rw [h]
    exact List.not_mem_nil _
  · intro hmem
    have := le_maxSession hmem
    omega

/-! ### Projection lemmas for the modelled operations -/

theorem callback_queue (st : LoggerState) (ts : Int) (n : TreeNode)
    (p s : NodeStatus) :
    (callback st ts n p s).transitions_queue
      = st.transitions_queue
        ++ [buildRecord st.meta_func st.starting_time ts n p s] := rfl

theorem callback_starting_time (st : LoggerState) (ts : Int) (n : TreeNode)
    (p s : NodeStatus) :
    (callback st ts n p s).starting_time
      = updateTable st.starting_time ts n s := rfl

theorem callback_meta (st : LoggerState) (ts : Int) (n : TreeNode)
    (p s : NodeStatus) : (callback st ts n p s).meta_func = st.meta_func := rfl

theorem callback_store (st : LoggerState) (ts : Int) (n : TreeNode)
    (p s : NodeStatus) : (callback st ts n p s).store = st.store := rfl

theorem callback_session_id (st : LoggerState) (ts : Int) (n : TreeNode)
    (p s : NodeStatus) : (callback st ts n p s).session_id = st.session_id := rfl

theorem sessionRows_callback (st : LoggerState) (ts : Int) (n : TreeNode)
    (p s : NodeStatus) : sessionRows (callback st ts n p s) = sessionRows st := rfl

theorem drainWrite_store_rows (st : LoggerState) :
    (drainWrite st).store.rows
      = st.store.rows
        ++ st.transitions_queue.map (fun t => (st.session_id, t)) := rfl

theorem drainWrite_queue (st : LoggerState) :
    (drainWrite st).transitions_queue = [] := rfl

theorem drainWrite_session_id (st : LoggerState) :
    (drainWrite st).session_id = st.session_id := rfl

theorem drainWrite_meta (st : LoggerState) :
    (drainWrite st).meta_func = st.meta_func := rfl

theorem drainWrite_starting_time (st : LoggerState) :
    (drainWrite st).starting_time = st.starting_time := rfl

theorem getLast?_map_concat {α β : Type _} (f : α → β) (l : List α) (a : α) :
    ((l ++ [a]).map f).getLast? = some (f a) := by
  simp

theorem filter_session_map (sid : Nat) (l : List Transition) :
    ((l.map (fun t => (sid, t))).filter (fun r => r.1 = sid)).map Prod.snd
      = l := by
  induction l with
  | nil => rfl
  | cons a as ih => simp [ih]

theorem filter_keys_nil {β : Type _} (l : List (Nat × β)) (sid : Nat)
    (h : ∀ p ∈ l, p.1 ≠ sid) : l.filter (fun r => r.1 = sid) = [] := by
  induction l with
  | nil => rfl
  | cons a as ih =>
    have ha : a.1 ≠ sid := h a (List.mem_cons_self a as)
    simp only [List.filter_cons]
    rw [if_neg (by simpa using ha)]
    exact ih (fun p hp => h p (List.mem_cons_of_mem a hp))

theorem sessionRows_drainWrite (st : LoggerState) :
    sessionRows (drainWrite st) = sessionRows st ++ st.transitions_queue := by
  show ((st.store.rows
          ++ st.transitions_queue.map (fun t => (st.session_id, t))).filter
        (fun r => r.1 = st.session_id)).map Prod.snd = _
  rw [List.filter_append, List.map_append, filter_session_map]
  rfl

/-! ### Invariants of arbitrary producer/writer interleavings -/

theorem run_session_id (es : List Event) : ∀ st : LoggerState,
    (run st es).session_id = st.session_id := by
  induction es with
  | nil => intro st; rfl
  | cons e es ih =>
    intro st
    cases e with
    | cb ts n p s =>
      show (run (callback st ts n p s) es).session_id = st.session_id
      rw [ih, callback_session_id]
    | drain =>
      show (run (drainWrite st) es).session_id = st.session_id
      rw [ih, drainWrite_session_id]

theorem run_rows_queue (es : List Event) : ∀ st : LoggerState,
    (run st es).store.rows
      ++ (run st es).transitions_queue.map (fun t => (st.session_id, t))
    = st.store.rows
      ++ (st.transitions_queue
          ++ producedRecords st.meta_func st.starting_time es).map
        (fun t => (st.session_id, t)) := by
  induction es with
  | nil =>
    intro st
    simp only [run, producedRecords, List.append_nil]
  | cons e es ih =>
    intro st
    cases e with
    | cb ts n p s =>
      have h := ih (callback st ts n p s)
      simp only [callback_store, callback_queue, callback_meta,
                 callback_starting_time, callback_session_id,
                 List.append_assoc, List.singleton_append] at h
      show (run (callback st ts n p s) es).store.rows ++ _ = _
      simp only [producedRecords, List.append_assoc, List.singleton_append]
      exact h
    | drain =>
      have h := ih (drainWrite st)
      simp only [drainWrite_store_rows, drainWrite_queue, drainWrite_meta,
                 drainWrite_starting_time, drainWrite_session_id,
                 List.nil_append, List.map_append, List.append_assoc] at h
      show (run (drainWrite st) es).store.rows ++ _ = _
      simp only [producedRecords, List.map_append, List.append_assoc]
      exact h

theorem sessionRows_run_queue (es : List Event) : ∀ st : LoggerState,
    sessionRows (run st es) ++ (run st es).transitions_queue
      = sessionRows st ++ st.transitions_queue
        ++ producedRecords st.meta_func st.starting_time es := by
  induction es with
  | nil =>
    intro st
    show sessionRows st ++ st.transitions_queue = _
    rw [producedRecords, List.append_nil]
  | cons e es ih =>
    intro st
    cases e with
    | cb ts n p s =>
      have h := ih (callback st ts n p s)
      simp only [sessionRows_callback, callback_queue, callback_meta,
                 callback_starting_time,
                 List.append_assoc, List.singleton_append] at h
      show sessionRows (run (callback st ts n p s) es) ++ _ = _
      simp only [producedRecords, List.append_assoc, List.singleton_append]
      exact h
    | drain =>
      have h := ih (drainWrite st)
      simp only [sessionRows_drainWrite, drainWrite_queue, drainWrite_meta,
                 drainWrite_starting_time,
                 List.append_nil, List.append_assoc] at h
      show sessionRows (run (drainWrite st) es) ++ _ = _
      simp only [producedRecords, List.append_assoc]
      exact h

theorem flush_run_rows (st : LoggerState) (es : List Event) :
    (flush (run st es)).store.rows
      = st.store.rows
        ++ (st.transitions_queue
            ++ producedRecords st.meta_func st.starting_time es).map
          (fun t => (st.session_id, t)) := by
  have h := run_rows_queue es st
  have hsid := run_session_id es st
  show (run st es).store.rows
      ++ (run st es).transitions_queue.map
        (fun t => ((run st es).session_id, t)) = _
  simp only [hsid]
  exact h

theorem sessionRows_flush_run (st : LoggerState) (es : List Event) :
    sessionRows (flush (run st es))
      = sessionRows st ++ st.transitions_queue
        ++ producedRecords st.meta_func st.starting_time es := by
  rw [show sessionRows (flush (run st es))
        = sessionRows (run st es) ++ (run st es).transitions_queue
      from sessionRows_drainWrite (run st es)]
  exact sessionRows_run_queue es st

theorem producedRecords_length (mf : Option MetadataFunc) (es : List Event) :
    ∀ table : List (Nat × Int),
      (producedRecords mf table es).length = countCb es := by
  induction es with
  | nil => intro table; rfl
  | cons e es ih =>
    intro table
    cases e with
    | cb ts n p s => simp [producedRecords, countCb, ih]
    | drain => simp [producedRecords, countCb, ih]

theorem destruct_store (st : LoggerState) :
    (destruct st).store = (flush st).store := rfl

theorem sessionRows_destruct (st : LoggerState) :
    sessionRows (destruct st) = sessionRows (flush st) := rfl

theorem run_treeRows (es : List Event) : ∀ st : LoggerState,
    (run st es).store.treeRows = st.store.treeRows := by
  induction es with
  | nil => intro st; rfl
  | cons e es ih =>
    intro st
    cases e with
    | cb ts n p s =>
      show (run (callback st ts n p s) es).store.treeRows = _
      rw [ih, callback_store]
    | drain =>
      show (run (drainWrite st) es).store.treeRows = _
      rw [ih]
      rfl

/-! ### The claims -/

/-- C1: for every sequence of status-change callback invocations on the
producer side, arbitrarily interleaved with writer drain cycles, after
`flush()` the store contains exactly `countCb es` transition rows for the
current session — the records built by the callbacks, in exactly the order
they were pushed; no record is dropped, duplicated, or reordered between push
and drain/persist.  The hypotheses state that the logger starts as right
after construction: empty queue and no rows yet persisted for its session. -/
theorem fifo_no_loss_after_flush (st : LoggerState) (es : List Event)
    (hq : st.transitions_queue = []) (hr : sessionRows st = []) :
    sessionRows (flush (run st es))
      = producedRecords st.meta_func st.starting_time es
    ∧ (sessionRows (flush (run st es))).length = countCb es := by
  have h := sessionRows_flush_run st es
  rw [hq, hr] at h
  simp only [List.nil_append, List.append_nil] at h
  refine ⟨h, ?_⟩
  rw [h]
  exact producedRecords_length st.meta_func es st.starting_time

/-- Witness for fifo_no_loss_after_flush at the concrete logger `logger0`
and event sequence `eventsA`. -/
theorem fifo_no_loss_after_flush_witness :
    logger0.transitions_queue = [] ∧ sessionRows logger0 = []
    ∧ (sessionRows (flush (run logger0 eventsA))
        = producedRecords logger0.meta_func logger0.starting_time eventsA
      ∧ (sessionRows (flush (run logger0 eventsA))).length = countCb eventsA) :=
  ⟨rfl, rfl, fifo_no_loss_after_flush logger0 eventsA rfl rfl⟩

/-- C2: the persisted duration is computed by the logger from its per-node
start-time table, not supplied by the caller: when a node enters RUNNING at
time t0 and later leaves it at time t1, the record persisted for the second
transition carries duration t1 - t0 (the elapsed time since the node entered
its previous non-idle status).  The int64 range hypotheses make the wrapped
64-bit duration field coincide with the mathematical difference. -/
theorem duration_from_start_table (st : LoggerState) (n : TreeNode)
    (t0 t1 : Int) (p s : NodeStatus)
    (hlo : -(2 ^ 63) ≤ t1 - t0) (hhi : t1 - t0 < 2 ^ 63) :
    (((callback (callback st t0 n p .RUNNING) t1 n .RUNNING
          s).transitions_queue).map Transition.duration).getLast?
      = some (t1 - t0) := by
  rw [callback_queue, getLast?_map_concat]
  show some (buildRecord st.meta_func
      (updateTable st.starting_time t0 n .RUNNING) t1 n .RUNNING s).duration = _
  congr 1
  show (buildRecord st.meta_func (setStart st.starting_time n.addr t0)
      t1 n .RUNNING s).duration = t1 - t0
  simp only [buildRecord, lookupStart_setStart_same]
  exact toInt64_eq_self hlo hhi

/-- Witness for duration_from_start_table: node A transitions to RUNNING at
t=100 and to SUCCESS at t=150; the persisted SUCCESS row's duration is 50. -/
theorem duration_from_start_table_witness :
    -(2 ^ 63) ≤ (150 : Int) - 100 ∧ ((150 : Int) - 100) < 2 ^ 63
    ∧ (((callback (callback logger0 100 nodeA .IDLE .RUNNING) 150 nodeA
          .RUNNING .SUCCESS).transitions_queue).map
        Transition.duration).getLast? = some 50 := by
  refine ⟨by norm_num, by norm_num, ?_⟩
  have h := duration_from_start_table logger0 nodeA 100 150 .IDLE .SUCCESS
    (by norm_num) (by norm_num)
  have h50 : (150 : Int) - 100 = 50 := by norm_num
  rw [h50] at h
  exact h

/-- C3: destroying the logger without any call to flush() performs a final
drain and write of all still-queued records before the writer exits and the
store closes: for any interleaving of pushes and writer drains starting from
a freshly-constructed state, the destructed store holds exactly the pushed
records for the session, the queue is empty, the stop flag is down and the
store is closed. -/
theorem no_loss_on_shutdown (st : LoggerState) (es : List Event)
    (hq : st.transitions_queue = []) (hr : sessionRows st = []) :
    sessionRows (destruct (run st es))
      = producedRecords st.meta_func st.starting_time es
    ∧ (sessionRows (destruct (run st es))).length = countCb es
    ∧ (destruct (run st es)).transitions_queue = []
    ∧ (destruct (run st es)).loop_ = false
    ∧ (destruct (run st es)).closed = true := by
  have h := sessionRows_flush_run st es
  rw [hq, hr] at h
  simp only [List.nil_append, List.append_nil] at h
  rw [sessionRows_destruct]
  refine ⟨h, ?_, rfl, rfl, rfl⟩
  rw [h]
  exact producedRecords_length st.meta_func es st.starting_time

/-- Witness for no_loss_on_shutdown at `logger0` and `eventsA`
(two records pushed, one intervening writer drain, then destruction). -/
theorem no_loss_on_shutdown_witness :
    logger0.transitions_queue = [] ∧ sessionRows logger0 = []
    ∧ (sessionRows (destruct (run logger0 eventsA))
        = producedRecords logger0.meta_func logger0.starting_time eventsA
      ∧ (sessionRows (destruct (run logger0 eventsA))).length = countCb eventsA
      ∧ (destruct (run logger0 eventsA)).transitions_queue = []
      ∧ (destruct (run logger0 eventsA)).loop_ = false
      ∧ (destruct (run logger0 eventsA)).closed = true) :=
  ⟨rfl, rfl, no_loss_on_shutdown logger0 eventsA rfl rfl⟩

theorem construct_eq_ok (desc file : String) (append : Bool) (existing : Store)
    (hext : hasMandatedExtension file = true) :
    construct desc file append existing
      = .ok (constructedState desc append existing) := by
  unfold construct
  rw [hext]
  simp

theorem constructedState_queue (desc : String) (append : Bool)
    (existing : Store) :
    (constructedState desc append existing).transitions_queue = [] := rfl

/-- C4: at construction the session id is a function of the store's existing
content — 0 for a fresh (non-append) store, `nextSessionId existing` (max
existing session id + 1, by definition of `nextSessionId`, or 0 when no
session exists yet) in append mode; the tree's structural description is
persisted exactly once for the new session; the new session starts with no
transition rows; and after any run followed by flush, the store holds
exactly the prior rows followed by the produced records, each tagged with the
owning session id (sessions never intermix). -/
theorem session_allocation (desc file : String) (append : Bool)
    (existing : Store) (st : LoggerState) (es : List Event)
    (hwf : WellFormedStore existing)
    (hok : construct desc file append existing = .ok st) :
    st.session_id = (if append then nextSessionId existing else 0)
    ∧ st.store.treeRows.filter (fun r => r.1 = st.session_id)
        = [(st.session_id, desc)]
    ∧ sessionRows st = []
    ∧ (flush (run st es)).store.rows
        = st.store.rows
          ++ (producedRecords st.meta_func st.starting_time es).map
            (fun t => (st.session_id, t)) := by
  have hext : hasMandatedExtension file = true := by
    by_contra hc
    rw [Bool.not_eq_true] at hc
    unfold construct at hok
    rw [if_pos hc] at hok
    simp at hok
  rw [construct_eq_ok desc file append existing hext] at hok
  injection hok with hok
  subst hok
  have hbase : WellFormedStore (if append then existing else emptyStore) := by
    cases append with
    | false => simp [WellFormedStore, emptyStore]
    | true => simpa using hwf
  have hnotmem := nextSessionId_not_mem (if append then existing else emptyStore)
  have htree : ∀ q ∈ (if append then existing else emptyStore).treeRows,
      q.1 ≠ nextSessionId (if append then existing else emptyStore) :=
    fun q hq he => hnotmem (he ▸ hbase.1 q hq)
  have hrows : ∀ q ∈ (if append then existing else emptyStore).rows,
      q.1 ≠ nextSessionId (if append then existing else emptyStore) :=
    fun q hq he => hnotmem (he ▸ hbase.2 q hq)
  refine ⟨?_, ?_, ?_, ?_⟩
  · show nextSessionId (if append then existing else emptyStore)
        = if append then nextSessionId existing else 0
    cases append with
    | false => simp [nextSessionId, emptyStore]
    | true => simp
  · show (((if append then existing else emptyStore).treeRows
        ++ [(nextSessionId (if append then existing else emptyStore),
             desc)]).filter
          (fun r => r.1
            = nextSessionId (if append then existing else emptyStore)))
        = [(nextSessionId (if append then existing else emptyStore), desc)]
    rw [List.filter_append, filter_keys_nil _ _ htree]
    simp
  · show (((if append then existing else emptyStore).rows).filter
        (fun r => r.1
          = nextSessionId (if append then existing else emptyStore))).map
        Prod.snd = []
    rw [filter_keys_nil _ _ hrows]
    rfl
  · have h := flush_run_rows (constructedState desc append existing) es
    rw [constructedState_queue, List.nil_append] at h
    exact h

/-- Witness for session_allocation: appending to a store holding sessions 0
and 7 yields session id 8 = max + 1, the new tree row, an empty new session,
and correctly tagged rows after running `eventsA` and flushing. -/
theorem session_allocation_witness :
    WellFormedStore priorStore
    ∧ construct "tc" "w.db3" true priorStore = .ok loggerAppended
    ∧ (loggerAppended.session_id = (if true then nextSessionId priorStore else 0)
      ∧ loggerAppended.store.treeRows.filter
          (fun r => r.1 = loggerAppended.session_id)
          = [(loggerAppended.session_id, "tc")]
      ∧ sessionRows loggerAppended = []
      ∧ (flush (run loggerAppended eventsA)).store.rows
          = loggerAppended.store.rows
            ++ (producedRecords loggerAppended.meta_func
                loggerAppended.starting_time eventsA).map
              (fun t => (loggerAppended.session_id, t))) :=
  ⟨by decide, rfl,
   session_allocation "tc" "w.db3" true priorStore loggerAppended eventsA
     (by decide) rfl⟩

/-- C5: constructing with a destination path whose extension is not the
mandated ".db3" fails synchronously with a configuration error returned to
the constructor's caller (the model of the constructor throw); no logger
state — and hence no store content — is ever produced, and nothing is
deferred to the background task. -/
theorem extension_validation (desc file : String) (append : Bool)
    (existing : Store) (h : hasMandatedExtension file = false) :
    construct desc file append existing = .error .badExtension := by
  unfold construct
  rw [if_pos h]

/-- Witness for extension_validation at a path with the wrong extension. -/
theorem extension_validation_witness :
    hasMandatedExtension "t12_sqlitelog.txt" = false
    ∧ construct "tree" "t12_sqlitelog.txt" false emptyStore
        = .error .badExtension :=
  ⟨by decide,
   extension_validation "tree" "t12_sqlitelog.txt" false emptyStore (by decide)⟩

/-- C6: on every status change the metadata function, when set, is invoked
synchronously on the producer side with the same four arguments as the
observer callback (timestamp, node, previous status, new status), and its
return value becomes the queued row's metadata; when no metadata function is
set the row's metadata is the empty string (a callback returning the empty
string yields the same empty metadata by the first part). -/
theorem metadata_injection (st : LoggerState) (f : MetadataFunc) (ts : Int)
    (n : TreeNode) (p s : NodeStatus) :
    ((callback (setMetadataCallback st f) ts n p
        s).transitions_queue.map Transition.metadata).getLast?
      = some (f ts n p s)
    ∧ ((callback { st with meta_func := none } ts n p
        s).transitions_queue.map Transition.metadata).getLast?
      = some "" := by
  constructor
  · rw [callback_queue, getLast?_map_concat]
    rfl
  · rw [callback_queue, getLast?_map_concat]
    rfl

/-- C7: flush empties the queue, appends exactly the records queued at the
time of the call (tagged with the owning session) to the store, and is
idempotent over an unchanged queue: a second flush with no intervening
pushes changes nothing — it persists no additional or duplicate rows. -/
theorem flush_idempotent (st : LoggerState) :
    (flush st).transitions_queue = []
    ∧ (flush st).store.rows
        = st.store.rows
          ++ st.transitions_queue.map (fun t => (st.session_id, t))
    ∧ flush (flush st) = flush st := by
  refine ⟨rfl, rfl, ?_⟩
  show drainWrite (drainWrite st) = drainWrite st
  cases st with
  | mk store sid table q mf cw lp cl =>
    cases store with
    | mk ids tr rows => simp [drainWrite]

theorem foldl_pushRecord_length (rs : List Transition) : ∀ st : LoggerState,
    (rs.foldl pushRecord st).transitions_queue.length
      = st.transitions_queue.length + rs.length := by
  induction rs with
  | nil => intro st; rfl
  | cons r rs ih =>
    intro st
    show (List.foldl pushRecord (pushRecord st r) rs).transitions_queue.length = _
    rw [ih]
    simp [pushRecord]
    omega

/-- C8: push appends the record to the queue's tail, accepts every push with
no backpressure (it is a total function on every state — the model of never
blocking the producer — and iterated pushes grow the queue without bound, as
the fold conjunct shows), and wakes one waiting consumer (the
consumer-waiting flag is cleared). -/
theorem push_appends_never_blocks (st : LoggerState) (r : Transition)
    (rs : List Transition) :
    (pushRecord st r).transitions_queue = st.transitions_queue ++ [r]
    ∧ (pushRecord st r).transitions_queue.length
        = st.transitions_queue.length + 1
    ∧ (pushRecord st r).consumer_waiting = false
    ∧ (rs.foldl pushRecord st).transitions_queue.length
        = st.transitions_queue.length + rs.length := by
  refine ⟨rfl, ?_, rfl, foldl_pushRecord_length rs st⟩
  simp [pushRecord]

/-- C9: the per-node start-time table is keyed by the node object's address
(`const TreeNode*` in the header), not by node_uid: a callback for one node
object never touches the entry of a node object at a different address —
even one with the same UID, as the witness instantiates — and a node object
whose address has no entry (e.g. a freshly recreated node) computes duration
0, inheriting nothing from another object that entered RUNNING just
before. -/
theorem start_table_keyed_by_address (st : LoggerState) (n1 n2 : TreeNode)
    (t0 t1 : Int) (p0 p1 s0 s1 : NodeStatus)
    (haddr : n1.addr ≠ n2.addr)
    (hfresh : lookupStart st.starting_time n2.addr = none) :
    lookupStart (callback st t0 n1 p0 s0).starting_time n2.addr
      = lookupStart st.starting_time n2.addr
    ∧ (((callback (callback st t0 n1 p0 .RUNNING) t1 n2 p1
          s1).transitions_queue).map Transition.duration).getLast?
        = some 0 := by
  constructor
  · rw [callback_starting_time]
    unfold updateTable
    split
    · exact lookupStart_setStart_other _ _ _ _ haddr
    · rfl
  · rw [callback_queue, getLast?_map_concat]
    congr 1
    show (buildRecord st.meta_func (setStart st.starting_time n1.addr t0)
        t1 n2 p1 s1).duration = 0
    simp only [buildRecord]
    rw [lookupStart_setStart_other _ _ _ _ haddr, hfresh]
    exact toInt64_zero

/-- Witness for start_table_keyed_by_address: two distinct node objects with
the same UID 5; node B, fresh in the table, records duration 0 although node
A entered RUNNING at t=100. -/
theorem start_table_keyed_by_address_witness :
    nodeA.addr ≠ nodeB.addr
    ∧ lookupStart logger0.starting_time nodeB.addr = none
    ∧ (lookupStart (callback logger0 100 nodeA .IDLE .RUNNING).starting_time
          nodeB.addr = lookupStart logger0.starting_time nodeB.addr
      ∧ (((callback (callback logger0 100 nodeA .IDLE .RUNNING) 150 nodeB
            .IDLE .SUCCESS).transitions_queue).map
          Transition.duration).getLast? = some 0) :=
  ⟨by decide, rfl,
   start_table_keyed_by_address logger0 nodeA nodeB 100 150 .IDLE .IDLE
     .RUNNING .SUCCESS (by decide) rfl⟩

/-- C10: the callback queues exactly the built record, whose node_uid is the
engine UID reduced modulo 2^16 (the `uint16_t` field of the header's
Transition struct, hence < 2^16 — so a UID ≥ 2^16 is recorded reduced), and
whose timestamp and duration are 64-bit signed integers: values in
[-2^63, 2^63). -/
theorem record_field_widths (st : LoggerState) (ts : Int) (n : TreeNode)
    (p s : NodeStatus) :
    (callback st ts n p s).transitions_queue
      = st.transitions_queue
        ++ [buildRecord st.meta_func st.starting_time ts n p s]
    ∧ (buildRecord st.meta_func st.starting_time ts n p s).node_uid
        = n.uid % 2 ^ 16
    ∧ (buildRecord st.meta_func st.starting_time ts n p s).node_uid < 2 ^ 16
    ∧ -(2 ^ 63)
        ≤ (buildRecord st.meta_func st.starting_time ts n p s).timestamp
    ∧ (buildRecord st.meta_func st.starting_time ts n p s).timestamp < 2 ^ 63
    ∧ -(2 ^ 63)
        ≤ (buildRecord st.meta_func st.starting_time ts n p s).duration
    ∧ (buildRecord st.meta_func st.starting_time ts n p s).duration
        < 2 ^ 63 := by
  refine ⟨rfl, rfl, ?_, ?_, ?_, ?_, ?_⟩
  · exact Nat.mod_lt _ (by norm_num)
  · exact toInt64_lower ts
  · exact toInt64_upper ts
  · exact toInt64_lower _
  · exact toInt64_upper _

end BTSpec
